import Mathlib

/-!
Shallow embedding of `src/src/index.ts` of the patient-management-system
canister: the `patientStorage` map (an azle `StableBTreeMap<string, Patient>`)
and the exported operations built on it.

Modelling conventions:
* The global mutable `patientStorage` becomes explicit state passing: every
  exported operation takes the current store and returns the pair
  `(result, new store)`; query operations return the store unchanged, which is
  faithful because they never call `insert`/`remove`.
* `uuidv4()` and `ic.time()` are external effects; operations that use them
  take the produced value (`genId`, `now`) as an extra argument.
* JS truthiness of the guards is modelled exactly: `!s` for a string is
  emptiness, `!n` for the numeric `age` field is `n = 0`, and `!o` for an azle
  `Opt` value is constantly `false`, because an azle `Opt` is a plain JS
  object (`{Some: v}` or `{None: null}`) and every JS object is truthy.
* `nat64` timestamps become `Nat`; the candid `float64` field `age` becomes
  `Int` (no arithmetic is ever performed on it; only its truthiness is used).
* The `try`/`catch` wrappers are not modelled: nothing in the embedded bodies
  throws.
-/

namespace Pms

/-- Tagged success-or-error result, mirroring azle's `Result<T, string>`. -/
inductive Res (α : Type) where
  | Ok : α → Res α
  | Err : String → Res α
deriving DecidableEq, Repr

/-- Embeds `MedicalRecord` record type from `index.ts`. -/
structure MedicalRecord where
  id : String
  patientId : String
  diagnosis : String
  treatment : String
  date : Nat
deriving DecidableEq, Repr

/-- Embeds `Patient` record type from `index.ts`. -/
structure Patient where
  id : String
  name : String
  age : Int
  gender : String
  admittedAt : Option Nat
  dischargedAt : Option Nat
  isAdmitted : Bool
  medicalRecords : List MedicalRecord
deriving DecidableEq, Repr

/-- Embeds `PatientPayload` record type from `index.ts`. -/
structure PatientPayload where
  name : String
  age : Int
  gender : String
  medicalRecords : List MedicalRecord
deriving DecidableEq, Repr

/-- The `patientStorage` `StableBTreeMap<string, Patient>` modelled as an
association list from key to patient. -/
abbrev Store := List (String × Patient)

/-- Embeds `patientStorage.get(key)`: the value stored at `key`, if any. -/
def storeGet (k : String) : Store → Option Patient
  | [] => none
  | (k', v) :: rest => if k = k' then some v else storeGet k rest

/-- Embeds `patientStorage.insert(key, value)`: insert or overwrite at `key`. -/
def storeInsert (k : String) (v : Patient) : Store → Store
  | [] => [(k, v)]
  | (k', v') :: rest =>
      if k = k' then (k, v) :: rest else (k', v') :: storeInsert k v rest

/-- Embeds `patientStorage.remove(key)`: the store with `key` deleted, paired with
the removed value (`none` when the key was absent). -/
def storeRemove (k : String) : Store → Store × Option Patient
  | [] => ([], none)
  | (k', v) :: rest =>
      if k = k' then (rest, some v)
      else
        let r := storeRemove k rest
        ((k', v) :: r.1, r.2)

/-- Embeds `patientStorage.values()`: all stored patients in store order. -/
def storeValues (s : Store) : List Patient := s.map Prod.snd

/-- JS `String.prototype.toLowerCase` (ASCII letters, as used by the code). -/
def jsToLower (s : String) : String := String.map Char.toLower s

/-- JS `String.prototype.includes`: substring containment. -/
def jsIncludes (s sub : String) : Bool := decide (sub.data <:+: s.data)

/-- JS `Array.prototype.findIndex` on a patient's medical records, with
`none` standing for the JS result `-1`. -/
def jsFindIndex (pred : MedicalRecord → Bool) : List MedicalRecord → Option Nat
  | [] => none
  | m :: ms => if pred m then some 0 else (jsFindIndex pred ms).map (· + 1)

/-- Hexadecimal digit of the regex character class `[\da-f]` under the `i`
flag: a digit or a letter `a`-`f` in either case. -/
def isHexDigit (c : Char) : Bool :=
  c.isDigit || (('a' ≤ c && c ≤ 'f') || ('A' ≤ c && c ≤ 'F'))

/-- Consume exactly `n` hex digits from the front of the character list. -/
def hexRun : Nat → List Char → Option (List Char)
  | 0, cs => some cs
  | _ + 1, [] => none
  | n + 1, c :: cs => if isHexDigit c then hexRun n cs else none

/-- Consume a literal dash. -/
def dashRun : List Char → Option (List Char)
  | '-' :: cs => some cs
  | _ => none

/-- Embeds `isValidUUID` from `index.ts`: whole-string match of the regex
`/^[\da-f]{8}-([\da-f]{4}-){3}[\da-f]{12}$/i`, i.e. hexadecimal groups of
sizes 8-4-4-4-12 separated by dashes. -/
def isValidUUID (id : String) : Bool :=
  (((((((((hexRun 8 id.data).bind dashRun).bind (hexRun 4)).bind
      dashRun).bind (hexRun 4)).bind dashRun).bind (hexRun 4)).bind
      dashRun).bind (hexRun 12)) = some []

/-- JS truthiness of an azle `Opt` value: an `Opt` is a plain JS object
(`{Some: v}` or `{None: null}`), and every JS object is truthy, so this is
constantly `true` — the `None` case is NOT falsy. -/
def jsTruthyOpt (_ : Option Patient) : Bool := true

/-- Embeds `addPatient(payload)`; `genId` is the value produced by `uuidv4()`. -/
def addPatient (genId : String) (payload : PatientPayload) (s : Store) :
    Res Patient × Store :=
  if payload.name = "" || payload.age = 0 || payload.gender = "" then
    (Res.Err "Missing required fields in the patient object", s)
  else
    let newPatient : Patient :=
      { id := genId
        isAdmitted := false
        admittedAt := none
        dischargedAt := none
        name := payload.name
        age := payload.age
        gender := payload.gender
        medicalRecords := payload.medicalRecords }
    (Res.Ok newPatient, storeInsert genId newPatient s)

/-- Embeds `getPatients()`. -/
def getPatients (s : Store) : Res (List Patient) × Store :=
  (Res.Ok (storeValues s), s)

/-- Embeds `getPatient(id)`. -/
def getPatient (id : String) (s : Store) : Res Patient × Store :=
  if id = "" then
    (Res.Err "Invalid ID for getting a patient.", s)
  else
    match storeGet id s with
    | some patient => (Res.Ok patient, s)
    | none => (Res.Err s!"Patient with id={id} not found", s)

/-- Embeds `updatePatient(id, payload)`: the object spread
`{...existingPatient, ...payload}` keeps `id`, `isAdmitted` and both
timestamps from the existing patient and takes the four payload fields. -/
def updatePatient (id : String) (payload : PatientPayload) (s : Store) :
    Res Patient × Store :=
  if id = "" then
    (Res.Err "Invalid ID for updating a patient.", s)
  else if payload.name = "" || payload.age = 0 || payload.gender = "" then
    (Res.Err "Missing required fields in the patient object", s)
  else
    match storeGet id s with
    | some existingPatient =>
        let updatedPatient : Patient :=
          { existingPatient with
            name := payload.name
            age := payload.age
            gender := payload.gender
            medicalRecords := payload.medicalRecords }
        (Res.Ok updatedPatient, storeInsert id updatedPatient s)
    | none => (Res.Err s!"Patient with id={id} does not exist", s)

/-- Embeds `addMedicalRecord(patientId, medicalRecord)`. -/
def addMedicalRecord (patientId : String) (medicalRecord : MedicalRecord)
    (s : Store) : Res Patient × Store :=
  if patientId = "" then
    (Res.Err "Invalid patient ID for adding a medical record.", s)
  else
    match storeGet patientId s with
    | some patient =>
        let updatedPatient : Patient :=
          { patient with
            medicalRecords := patient.medicalRecords ++ [medicalRecord] }
        (Res.Ok updatedPatient, storeInsert patientId updatedPatient s)
    | none => (Res.Err s!"Patient with id={patientId} does not exist", s)

/-- Embeds `updateMedicalRecord(patientId, medicalRecordId, updatedMedicalRecord)`:
replaces the record at the first index whose `id` equals `medicalRecordId`
via `slice(0, i) ++ [new] ++ slice(i+1)`. -/
def updateMedicalRecord (patientId medicalRecordId : String)
    (updatedMedicalRecord : MedicalRecord) (s : Store) : Res Patient × Store :=
  if patientId = "" || medicalRecordId = "" then
    (Res.Err "Invalid patient or medical record ID for updating a medical record.", s)
  else
    match storeGet patientId s with
    | some patient =>
        match jsFindIndex (fun record => record.id = medicalRecordId)
            patient.medicalRecords with
        | some recordIndex =>
            let updatedMedicalRecords :=
              patient.medicalRecords.take recordIndex ++
                [updatedMedicalRecord] ++
                patient.medicalRecords.drop (recordIndex + 1)
            let updatedPatient : Patient :=
              { patient with medicalRecords := updatedMedicalRecords }
            (Res.Ok updatedPatient, storeInsert patientId updatedPatient s)
        | none =>
            (Res.Err s!"Medical record with id={medicalRecordId} not found for patient with id={patientId}", s)
    | none => (Res.Err s!"Patient with id={patientId} does not exist", s)

/-- Embeds `deleteMedicalRecord(patientId, medicalRecordId)`: removes the record at
the first index whose `id` equals `medicalRecordId` via
`slice(0, i) ++ slice(i+1)`. -/
def deleteMedicalRecord (patientId medicalRecordId : String) (s : Store) :
    Res Patient × Store :=
  if patientId = "" || medicalRecordId = "" then
    (Res.Err "Invalid patient or medical record ID for deleting a medical record.", s)
  else
    match storeGet patientId s with
    | some patient =>
        match jsFindIndex (fun record => record.id = medicalRecordId)
            patient.medicalRecords with
        | some recordIndex =>
            let updatedMedicalRecords :=
              patient.medicalRecords.take recordIndex ++
                patient.medicalRecords.drop (recordIndex + 1)
            let updatedPatient : Patient :=
              { patient with medicalRecords := updatedMedicalRecords }
            (Res.Ok updatedPatient, storeInsert patientId updatedPatient s)
        | none =>
            (Res.Err s!"Medical record with id={medicalRecordId} not found for patient with id={patientId}", s)
    | none => (Res.Err s!"Patient with id={patientId} does not exist", s)

/-- Embeds `searchPatients(query)`: case-insensitive substring filter on names. -/
def searchPatients (query : String) (s : Store) : Res (List Patient) × Store :=
  let lowerCaseQuery := jsToLower query
  (Res.Ok ((storeValues s).filter
    (fun patient => jsIncludes (jsToLower patient.name) lowerCaseQuery)), s)

/-- Embeds `admitPatient(id)`; `now` is the value produced by `ic.time()`. -/
def admitPatient (id : String) (now : Nat) (s : Store) : Res Patient × Store :=
  if id = "" then
    (Res.Err "Invalid ID for admitting a patient.", s)
  else
    match storeGet id s with
    | some patient =>
        if patient.isAdmitted then
          (Res.Err s!"Patient with id={id} is already admitted", s)
        else
          let newPatient : Patient :=
            { patient with isAdmitted := true, admittedAt := some now }
          (Res.Ok newPatient, storeInsert id newPatient s)
    | none => (Res.Err s!"Patient with id={id} not found", s)

/-- Embeds `getMedicalRecords(id)`. -/
def getMedicalRecords (id : String) (s : Store) :
    Res (List MedicalRecord) × Store :=
  if id = "" then
    (Res.Err "Invalid ID for getting medical records.", s)
  else
    match storeGet id s with
    | some patient => (Res.Ok patient.medicalRecords, s)
    | none => (Res.Err s!"Patient with id={id} not found", s)

/-- Embeds `dischargePatient(id)`; `now` is the value produced by `ic.time()`. -/
def dischargePatient (id : String) (now : Nat) (s : Store) :
    Res Patient × Store :=
  if id = "" then
    (Res.Err "Invalid ID for discharging a patient.", s)
  else
    match storeGet id s with
    | some patient =>
        if !patient.isAdmitted then
          (Res.Err s!"Patient with id={id} is not currently admitted", s)
        else
          let newPatient : Patient :=
            { patient with isAdmitted := false, dischargedAt := some now }
          (Res.Ok newPatient, storeInsert id newPatient s)
    | none => (Res.Err s!"Patient with id={id} not found", s)

/-- Embeds `deletePatient(id)`: validates the UUID shape, then removes the key and
tests the removed `Opt` with JS `!`. Since an azle `Opt` object is always
truthy, the `does not exist` branch is unreachable. -/
def deletePatient (id : String) (s : Store) : Res (Option Patient) × Store :=
  if !isValidUUID id then
    (Res.Err "Invalid patient ID", s)
  else
    let r := storeRemove id s
    if !jsTruthyOpt r.2 then
      (Res.Err s!"Patient with ID {id} does not exist", r.1)
    else
      (Res.Ok r.2, r.1)

/-- The admission invariant of the data model: every stored patient with
`isAdmitted = true` has a present `admittedAt` timestamp. -/
def AdmittedInv (s : Store) : Prop :=
  ∀ kp ∈ s, kp.2.isAdmitted = true → kp.2.admittedAt.isSome = true

/-- Stores reachable from the empty store by any sequence of the exported
operations (with arbitrary generated ids and clock readings). -/
inductive Reachable : Store → Prop where
  | empty : Reachable []
  | add (gid : String) (payload : PatientPayload) (s : Store) :
      Reachable s → Reachable (addPatient gid payload s).2
  | update (id : String) (payload : PatientPayload) (s : Store) :
      Reachable s → Reachable (updatePatient id payload s).2
  | addRec (pid : String) (r : MedicalRecord) (s : Store) :
      Reachable s → Reachable (addMedicalRecord pid r s).2
  | updateRec (pid rid : String) (r : MedicalRecord) (s : Store) :
      Reachable s → Reachable (updateMedicalRecord pid rid r s).2
  | delRec (pid rid : String) (s : Store) :
      Reachable s → Reachable (deleteMedicalRecord pid rid s).2
  | admitStep (id : String) (t : Nat) (s : Store) :
      Reachable s → Reachable (admitPatient id t s).2
  | discharge (id : String) (t : Nat) (s : Store) :
      Reachable s → Reachable (dischargePatient id t s).2
  | del (id : String) (s : Store) :
      Reachable s → Reachable (deletePatient id s).2
  | getOne (id : String) (s : Store) :
      Reachable s → Reachable (getPatient id s).2
  | getAll (s : Store) : Reachable s → Reachable (getPatients s).2
  | getRecs (id : String) (s : Store) :
      Reachable s → Reachable (getMedicalRecords id s).2
  | search (q : String) (s : Store) :
      Reachable s → Reachable (searchPatients q s).2

/-- The patient value `admitPatient` stores on success:
`{ ...patient, isAdmitted: true, admittedAt: Opt.Some(ic.time()) }`. -/
def admitted (p : Patient) (t : Nat) : Patient :=
  { p with isAdmitted := true, admittedAt := some t }

/-- The patient value `dischargePatient` stores on success:
`{ ...patient, isAdmitted: false, dischargedAt: Opt.Some(ic.time()) }`. -/
def discharged (p : Patient) (t : Nat) : Patient :=
  { p with isAdmitted := false, dischargedAt := some t }

/-- A sample medical record, for concrete witnesses. -/
def demoRecord (rid : String) : MedicalRecord :=
  { id := rid, patientId := "a", diagnosis := "flu", treatment := "rest", date := 7 }

/-- A sample patient stored under key `"a"`, not admitted, whose record list
contains two records sharing the id `"dup"`. -/
def demoPatient : Patient :=
  { id := "a", name := "Ann", age := 30, gender := "F", admittedAt := none,
    dischargedAt := none, isAdmitted := false,
    medicalRecords := [demoRecord "r1", demoRecord "dup", demoRecord "dup"] }

/-- A one-patient sample store. -/
def demoStore : Store := [("a", demoPatient)]

/-- A sample valid payload. -/
def demoPayload : PatientPayload :=
  { name := "Bob", age := 41, gender := "M", medicalRecords := [] }

theorem storeGet_insert_self (k : String) (v : Patient) (s : Store) :
    storeGet k (storeInsert k v s) = some v := by
  induction s with
  | nil => simp [storeInsert, storeGet]
  | cons hd tl ih =>
      obtain ⟨k', v'⟩ := hd
      by_cases h : k = k'
      · simp [storeInsert, storeGet, h]
      · simp [storeInsert, storeGet, h, ih]

theorem storeGet_insert_ne (k k' : String) (v : Patient) (s : Store)
    (h : k ≠ k') : storeGet k (storeInsert k' v s) = storeGet k s := by
  induction s with
  | nil => simp [storeInsert, storeGet, h]
  | cons hd tl ih =>
      obtain ⟨k'', v''⟩ := hd
      by_cases h2 : k' = k''
      · subst h2
        simp [storeInsert, storeGet, h]
      · by_cases h3 : k = k''
        · simp [storeInsert, storeGet, h2, h3]
        · simp [storeInsert, storeGet, h2, h3, ih]

theorem storeGet_remove_ne (k k' : String) (s : Store) (h : k ≠ k') :
    storeGet k (storeRemove k' s).1 = storeGet k s := by
  induction s with
  | nil => simp [storeRemove, storeGet]
  | cons hd tl ih =>
      obtain ⟨k'', v''⟩ := hd
      by_cases h2 : k' = k''
      · subst h2
        simp [storeRemove, storeGet, h]
      · by_cases h3 : k = k''
        · simp [storeRemove, storeGet, h2, h3]
        · simp [storeRemove, storeGet, h2, h3, ih]

theorem storeGet_mem (k : String) (v : Patient) (s : Store)
    (h : storeGet k s = some v) : (k, v) ∈ s := by
  induction s with
  | nil => simp [storeGet] at h
  | cons hd tl ih =>
      obtain ⟨k', v'⟩ := hd
      by_cases h2 : k = k'
      · subst h2
        simp [storeGet] at h
        simp [h]
      · simp [storeGet, h2] at h
        exact List.mem_cons_of_mem _ (ih h)

theorem mem_storeInsert (kp : String × Patient) (k : String) (v : Patient)
    (s : Store) (h : kp ∈ storeInsert k v s) : kp = (k, v) ∨ kp ∈ s := by
  induction s with
  | nil => simpa [storeInsert] using h
  | cons hd tl ih =>
      obtain ⟨k', v'⟩ := hd
      by_cases h2 : k = k'
      · subst h2
        simp [storeInsert] at h
        rcases h with h | h
        · exact Or.inl (by simp [h])
        · exact Or.inr (List.mem_cons_of_mem _ h)
      · simp [storeInsert, h2] at h
        rcases h with h | h
        · exact Or.inr (by simp [h])
        · rcases ih h with h3 | h3
          · exact Or.inl h3
          · exact Or.inr (List.mem_cons_of_mem _ h3)

theorem mem_storeRemove (kp : String × Patient) (k : String) (s : Store)
    (h : kp ∈ (storeRemove k s).1) : kp ∈ s := by
  induction s with
  | nil => simp [storeRemove] at h
  | cons hd tl ih =>
      obtain ⟨k', v'⟩ := hd
      by_cases h2 : k = k'
      · subst h2
        simp [storeRemove] at h
        exact List.mem_cons_of_mem _ h
      · simp [storeRemove, h2] at h
        rcases h with h | h
        · simp [h]
        · exact List.mem_cons_of_mem _ (ih h)

theorem admittedInv_insert (k : String) (v : Patient) (s : Store)
    (hs : AdmittedInv s) (hv : v.isAdmitted = true → v.admittedAt.isSome = true) :
    AdmittedInv (storeInsert k v s) := by
  intro kp hkp
  rcases mem_storeInsert kp k v s hkp with h | h
  · subst h
    exact hv
  · exact hs kp h

theorem jsFindIndex_spec (pred : MedicalRecord → Bool)
    (l : List MedicalRecord) (i : Nat) (h : jsFindIndex pred l = some i) :
    i < l.length ∧ (∃ m, l[i]? = some m ∧ pred m = true) ∧
      ∀ j, j < i → ∀ m, l[j]? = some m → pred m = false := by
  induction l generalizing i with
  | nil => simp [jsFindIndex] at h
  | cons hd tl ih =>
      by_cases hp : pred hd
      · simp [jsFindIndex, hp] at h
        subst h
        simpa using hp
      · simp [jsFindIndex, hp, Option.map_eq_some'] at h
        obtain ⟨i', hi', rfl⟩ := h
        obtain ⟨h1, h2, h3⟩ := ih i' hi'
        refine ⟨by simpa using Nat.succ_lt_succ h1, by simpa using h2, ?_⟩
        intro j hj m hm
        cases j with
        | zero =>
            simp at hm
            subst hm
            simpa using hp
        | succ j' =>
            exact h3 j' (by omega) m (by simpa using hm)

theorem jsFindIndex_eq_none (pred : MedicalRecord → Bool)
    (l : List MedicalRecord) (h : ∀ m ∈ l, pred m = false) :
    jsFindIndex pred l = none := by
  induction l with
  | nil => simp [jsFindIndex]
  | cons hd tl ih =>
      have hhd : pred hd = false := h hd (by simp)
      simp [jsFindIndex, hhd]
      exact ih fun m hm => h m (List.mem_cons_of_mem _ hm)

theorem replaceAt_eq_set (l : List MedicalRecord) (r : MedicalRecord) (i : Nat)
    (h : i < l.length) : l.take i ++ [r] ++ l.drop (i + 1) = l.set i r := by
  rw [List.set_eq_take_cons_drop r h]
  simp

theorem eraseAt_eq_eraseIdx (l : List MedicalRecord) (i : Nat) :
    l.take i ++ l.drop (i + 1) = l.eraseIdx i :=
  (List.eraseIdx_eq_take_drop_succ l i).symm

/-- C1: the claim says that for a UUID-shaped id that is not a key,
`deletePatient` returns the "does not exist" error. The code instead returns
`Ok(None)`: `remove` yields an azle `Opt` object, which is truthy even in the
`None` case, so `if (!deletedPatient)` never takes the error branch. This
theorem evaluates the embedded code at a concrete failing input (a valid UUID
absent from an empty store), and also shows the second half of the claim (a
present key is removed and returned, wrapped in `Some`). -/
theorem deletePatient_truthiness_bug_concrete :
    deletePatient "aaaaaaaa-aaaa-aaaa-aaaa-aaaaaaaaaaaa" [] =
      (Res.Ok none, ([] : Store)) ∧
    deletePatient "aaaaaaaa-aaaa-aaaa-aaaa-aaaaaaaaaaaa"
        [("aaaaaaaa-aaaa-aaaa-aaaa-aaaaaaaaaaaa", demoPatient)] =
      (Res.Ok (some demoPatient), ([] : Store)) := by
  constructor
  · decide
  · decide

/-- C2: `deletePatient` rejects any id failing the 8-4-4-4-12 hexadecimal
UUID shape with the error "Invalid patient ID", leaving the store untouched;
every other id-taking operation performs no shape check: with any non-empty
id (and rid) it reaches the store lookup and behaves according to the store
contents, never returning an id-shape error. -/
theorem uuid_guard_only_in_deletePatient (bad id rid : String) (s : Store)
    (p : Patient) (payload : PatientPayload) (r : MedicalRecord) (t : Nat)
    (hbad : isValidUUID bad = false)
    (hid : id ≠ "") (hrid : rid ≠ "")
    (hp : storeGet id s = some p)
    (hname : payload.name ≠ "") (hage : payload.age ≠ 0)
    (hgender : payload.gender ≠ "")
    (hadm : p.isAdmitted = false)
    (hnorec : ∀ m ∈ p.medicalRecords, m.id ≠ rid) :
    deletePatient bad s = (Res.Err "Invalid patient ID", s) ∧
    getPatient id s = (Res.Ok p, s) ∧
    getMedicalRecords id s = (Res.Ok p.medicalRecords, s) ∧
    (updatePatient id payload s).1 = Res.Ok
      { p with
        name := payload.name, age := payload.age,
        gender := payload.gender, medicalRecords := payload.medicalRecords } ∧
    (addMedicalRecord id r s).1 = Res.Ok
      { p with medicalRecords := p.medicalRecords ++ [r] } ∧
    (admitPatient id t s).1 = Res.Ok
      { p with isAdmitted := true, admittedAt := some t } ∧
    (dischargePatient id t s).1 =
      Res.Err s!"Patient with id={id} is not currently admitted" ∧
    (updateMedicalRecord id rid r s).1 =
      Res.Err s!"Medical record with id={rid} not found for patient with id={id}" ∧
    (deleteMedicalRecord id rid s).1 =
      Res.Err s!"Medical record with id={rid} not found for patient with id={id}" := by
  have hfind : jsFindIndex (fun record => record.id = rid) p.medicalRecords
      = none :=
    jsFindIndex_eq_none _ _ (fun m hm => decide_eq_false (hnorec m hm))
  refine ⟨?_, ?_, ?_, ?_, ?_, ?_, ?_, ?_, ?_⟩
  · simp [deletePatient, hbad]
  · simp [getPatient, hid, hp]
  · simp [getMedicalRecords, hid, hp]
  · simp [updatePatient, hid, hname, hage, hgender, hp]
  · simp [addMedicalRecord, hid, hp]
  · simp [admitPatient, hid, hp, hadm]
  · simp [dischargePatient, hid, hp, hadm]
  · simp [updateMedicalRecord, hid, hrid, hp, hfind]
  · simp [deleteMedicalRecord, hid, hrid, hp, hfind]

/-- Witness for C2 at concrete inputs. -/
theorem uuid_guard_only_in_deletePatient_witness :
    deletePatient "zz-not-a-uuid" demoStore =
      (Res.Err "Invalid patient ID", demoStore) ∧
    getPatient "a" demoStore = (Res.Ok demoPatient, demoStore) :=
  ⟨(uuid_guard_only_in_deletePatient "zz-not-a-uuid" "a" "zz" demoStore
      demoPatient demoPayload (demoRecord "r9") 5 (by decide) (by decide)
      (by decide) (by decide) (by decide) (by decide) (by decide) (by decide)
      (by decide)).1,
   (uuid_guard_only_in_deletePatient "zz-not-a-uuid" "a" "zz" demoStore
      demoPatient demoPayload (demoRecord "r9") 5 (by decide) (by decide)
      (by decide) (by decide) (by decide) (by decide) (by decide) (by decide)
      (by decide)).2.1⟩

/-- C3: admission state machine for a stored, not-admitted patient `p`:
`admitPatient(p.id)` succeeds and stores `p` with `isAdmitted = true` and a
present `admittedAt`; a second `admitPatient` with no intervening discharge
returns the "already admitted" error; `dischargePatient` on the original
not-admitted patient returns the "not currently admitted" error; and
`dischargePatient` on the admitted patient succeeds and stores it with
`isAdmitted = false` and a present `dischargedAt`. -/
theorem admission_state_machine (pid : String) (s : Store) (p : Patient)
    (t t2 t3 : Nat) (hpid : p.id = pid) (hne : pid ≠ "")
    (hp : storeGet pid s = some p) (hadm : p.isAdmitted = false) :
    admitPatient pid t s =
      (Res.Ok (admitted p t), storeInsert pid (admitted p t) s) ∧
    storeGet pid (storeInsert pid (admitted p t) s) = some (admitted p t) ∧
    (admitted p t).id = pid ∧
    (admitted p t).isAdmitted = true ∧
    (admitted p t).admittedAt.isSome = true ∧
    (admitPatient pid t2 (storeInsert pid (admitted p t) s)).1 =
      Res.Err s!"Patient with id={pid} is already admitted" ∧
    (dischargePatient pid t2 s).1 =
      Res.Err s!"Patient with id={pid} is not currently admitted" ∧
    dischargePatient pid t3 (storeInsert pid (admitted p t) s) =
      (Res.Ok (discharged (admitted p t) t3),
       storeInsert pid (discharged (admitted p t) t3)
         (storeInsert pid (admitted p t) s)) ∧
    storeGet pid (storeInsert pid (discharged (admitted p t) t3)
        (storeInsert pid (admitted p t) s)) =
      some (discharged (admitted p t) t3) ∧
    (discharged (admitted p t) t3).isAdmitted = false ∧
    (discharged (admitted p t) t3).dischargedAt.isSome = true := by
  refine ⟨?_, storeGet_insert_self pid (admitted p t) s, ?_, rfl, rfl, ?_, ?_,
    ?_, storeGet_insert_self pid (discharged (admitted p t) t3) _, rfl, rfl⟩
  · simp [admitPatient, hne, hp, hadm, admitted]
  · simp [admitted, hpid]
  · simp [admitPatient, hne, storeGet_insert_self, admitted]
  · simp [dischargePatient, hne, hp, hadm]
  · simp [dischargePatient, hne, storeGet_insert_self, admitted, discharged]

/-- Witness for C3 at concrete inputs. -/
theorem admission_state_machine_witness :
    admitPatient "a" 1 demoStore =
      (Res.Ok (admitted demoPatient 1),
       storeInsert "a" (admitted demoPatient 1) demoStore) ∧
    (admitPatient "a" 2 (storeInsert "a" (admitted demoPatient 1) demoStore)).1 =
      Res.Err "Patient with id=a is already admitted" :=
  ⟨(admission_state_machine "a" demoStore demoPatient 1 2 3 (by decide)
      (by decide) (by decide) (by decide)).1,
   (admission_state_machine "a" demoStore demoPatient 1 2 3 (by decide)
      (by decide) (by decide) (by decide)).2.2.2.2.2.1⟩

theorem getPatient_snd (id : String) (s : Store) : (getPatient id s).2 = s := by
  unfold getPatient
  split
  · rfl
  · cases h : storeGet id s <;> simp [h]

theorem getMedicalRecords_snd (id : String) (s : Store) :
    (getMedicalRecords id s).2 = s := by
  unfold getMedicalRecords
  split
  · rfl
  · cases h : storeGet id s <;> simp [h]

theorem admittedInv_addPatient (gid : String) (payload : PatientPayload)
    (s : Store) (h : AdmittedInv s) : AdmittedInv (addPatient gid payload s).2 := by
  unfold addPatient
  split
  · exact h
  · exact admittedInv_insert _ _ _ h (by simp)

theorem admittedInv_updatePatient (id : String) (payload : PatientPayload)
    (s : Store) (h : AdmittedInv s) :
    AdmittedInv (updatePatient id payload s).2 := by
  unfold updatePatient
  split
  · exact h
  split
  · exact h
  cases hG : storeGet id s with
  | none => simp only [hG]; exact h
  | some ex =>
      simp only [hG]
      exact admittedInv_insert _ _ _ h
        (fun hAdm => h (id, ex) (storeGet_mem _ _ _ hG) hAdm)

theorem admittedInv_addMedicalRecord (pid : String) (r : MedicalRecord)
    (s : Store) (h : AdmittedInv s) :
    AdmittedInv (addMedicalRecord pid r s).2 := by
  unfold addMedicalRecord
  split
  · exact h
  cases hG : storeGet pid s with
  | none => simp only [hG]; exact h
  | some ex =>
      simp only [hG]
      exact admittedInv_insert _ _ _ h
        (fun hAdm => h (pid, ex) (storeGet_mem _ _ _ hG) hAdm)

theorem admittedInv_updateMedicalRecord (pid rid : String) (r : MedicalRecord)
    (s : Store) (h : AdmittedInv s) :
    AdmittedInv (updateMedicalRecord pid rid r s).2 := by
  unfold updateMedicalRecord
  split
  · exact h
  cases hG : storeGet pid s with
  | none => simp only [hG]; exact h
  | some ex =>
      simp only [hG]
      cases hF : jsFindIndex (fun record => record.id = rid) ex.medicalRecords with
      | none => simp only [hF]; exact h
      | some i =>
          simp only [hF]
          exact admittedInv_insert _ _ _ h
            (fun hAdm => h (pid, ex) (storeGet_mem _ _ _ hG) hAdm)

theorem admittedInv_deleteMedicalRecord (pid rid : String) (s : Store)
    (h : AdmittedInv s) : AdmittedInv (deleteMedicalRecord pid rid s).2 := by
  unfold deleteMedicalRecord
  split
  · exact h
  cases hG : storeGet pid s with
  | none => simp only [hG]; exact h
  | some ex =>
      simp only [hG]
      cases hF : jsFindIndex (fun record => record.id = rid) ex.medicalRecords with
      | none => simp only [hF]; exact h
      | some i =>
          simp only [hF]
          exact admittedInv_insert _ _ _ h
            (fun hAdm => h (pid, ex) (storeGet_mem _ _ _ hG) hAdm)

theorem admittedInv_admitPatient (id : String) (t : Nat) (s : Store)
    (h : AdmittedInv s) : AdmittedInv (admitPatient id t s).2 := by
  unfold admitPatient
  split
  · exact h
  cases hG : storeGet id s with
  | none => simp only [hG]; exact h
  | some ex =>
      simp only [hG]
      by_cases hA : ex.isAdmitted
      · simp only [hA]; exact h
      · simp only [hA]
        exact admittedInv_insert _ _ _ h (fun _ => rfl)

theorem admittedInv_dischargePatient (id : String) (t : Nat) (s : Store)
    (h : AdmittedInv s) : AdmittedInv (dischargePatient id t s).2 := by
  unfold dischargePatient
  split
  · exact h
  cases hG : storeGet id s with
  | none => simp only [hG]; exact h
  | some ex =>
      simp only [hG]
      by_cases hA : ex.isAdmitted
      · simp only [hA]
        exact admittedInv_insert _ _ _ h (by simp)
      · simp only [hA]; exact h

theorem admittedInv_deletePatient (id : String) (s : Store)
    (h : AdmittedInv s) : AdmittedInv (deletePatient id s).2 := by
  unfold deletePatient
  split
  · exact h
  · simp only [jsTruthyOpt, Bool.not_true, Bool.false_eq_true, if_false]
    intro kp hkp
    exact h kp (mem_storeRemove kp id s hkp)

/-- C4: in every store reachable from the empty store by any sequence of the
exported operations, every stored patient with `isAdmitted = true` has a
present `admittedAt`; moreover every single operation preserves this
invariant on arbitrary stores. -/
theorem admitted_invariant :
    (∀ s, Reachable s → AdmittedInv s) ∧
    (∀ gid payload s, AdmittedInv s → AdmittedInv (addPatient gid payload s).2) ∧
    (∀ id payload s, AdmittedInv s → AdmittedInv (updatePatient id payload s).2) ∧
    (∀ pid r s, AdmittedInv s → AdmittedInv (addMedicalRecord pid r s).2) ∧
    (∀ pid rid r s, AdmittedInv s →
      AdmittedInv (updateMedicalRecord pid rid r s).2) ∧
    (∀ pid rid s, AdmittedInv s → AdmittedInv (deleteMedicalRecord pid rid s).2) ∧
    (∀ id t s, AdmittedInv s → AdmittedInv (admitPatient id t s).2) ∧
    (∀ id t s, AdmittedInv s → AdmittedInv (dischargePatient id t s).2) ∧
    (∀ id s, AdmittedInv s → AdmittedInv (deletePatient id s).2) ∧
    (∀ id s, AdmittedInv s → AdmittedInv (getPatient id s).2) ∧
    (∀ s, AdmittedInv s → AdmittedInv (getPatients s).2) ∧
    (∀ id s, AdmittedInv s → AdmittedInv (getMedicalRecords id s).2) ∧
    (∀ q s, AdmittedInv s → AdmittedInv (searchPatients q s).2) := by
  refine ⟨?_, admittedInv_addPatient, admittedInv_updatePatient,
    admittedInv_addMedicalRecord, admittedInv_updateMedicalRecord,
    admittedInv_deleteMedicalRecord, admittedInv_admitPatient,
    admittedInv_dischargePatient, admittedInv_deletePatient,
    fun id s h => (getPatient_snd id s).symm ▸ h,
    fun _ h => h,
    fun id s h => (getMedicalRecords_snd id s).symm ▸ h,
    fun _ _ h => h⟩
  intro s hr
  induction hr with
  | empty => intro kp hkp; simp at hkp
  | add gid payload s _ ih => exact admittedInv_addPatient gid payload s ih
  | update id payload s _ ih => exact admittedInv_updatePatient id payload s ih
  | addRec pid r s _ ih => exact admittedInv_addMedicalRecord pid r s ih
  | updateRec pid rid r s _ ih =>
      exact admittedInv_updateMedicalRecord pid rid r s ih
  | delRec pid rid s _ ih => exact admittedInv_deleteMedicalRecord pid rid s ih
  | admitStep id t s _ ih => exact admittedInv_admitPatient id t s ih
  | discharge id t s _ ih => exact admittedInv_dischargePatient id t s ih
  | del id s _ ih => exact admittedInv_deletePatient id s ih
  | getOne id s _ ih => exact (getPatient_snd id s).symm ▸ ih
  | getAll s _ ih => exact ih
  | getRecs id s _ ih => exact (getMedicalRecords_snd id s).symm ▸ ih
  | search q s _ ih => exact ih

/-- Witness for C4 on a concrete reachable store. -/
theorem admitted_invariant_witness :
    AdmittedInv (admitPatient "b" 5 (addPatient "b" demoPayload []).2).2 :=
  admitted_invariant.1 _
    (Reachable.admitStep "b" 5 _ (Reachable.add "b" demoPayload [] Reachable.empty))

/-- C5: for a payload with non-empty `name`, non-zero `age` and non-empty
`gender`, `addPatient` succeeds with a patient under the freshly generated id
(`uuidv4()` output, in particular non-empty), and `getPatient` on that id
immediately afterwards returns exactly the created patient: id the generated
one, `isAdmitted = false`, both timestamps absent, and the scalar fields and
`medicalRecords` taken from the payload. -/
theorem addPatient_getPatient_roundtrip (genId : String)
    (payload : PatientPayload) (s : Store) (hgen : genId ≠ "")
    (hname : payload.name ≠ "") (hage : payload.age ≠ 0)
    (hgender : payload.gender ≠ "") :
    ∃ newP : Patient,
      addPatient genId payload s = (Res.Ok newP, storeInsert genId newP s) ∧
      getPatient genId (addPatient genId payload s).2 =
        (Res.Ok newP, (addPatient genId payload s).2) ∧
      newP.id = genId ∧ newP.isAdmitted = false ∧ newP.admittedAt = none ∧
      newP.dischargedAt = none ∧ newP.name = payload.name ∧
      newP.age = payload.age ∧ newP.gender = payload.gender ∧
      newP.medicalRecords = payload.medicalRecords := by
  refine ⟨{
      id := genId, name := payload.name, age := payload.age,
      gender := payload.gender, admittedAt := none, dischargedAt := none,
      isAdmitted := false, medicalRecords := payload.medicalRecords },
    ?_, ?_, rfl, rfl, rfl, rfl, rfl, rfl, rfl, rfl⟩
  · simp [addPatient, hname, hage, hgender]
  · simp [addPatient, getPatient, hname, hage, hgender, hgen,
      storeGet_insert_self]

/-- Witness for C5 at concrete inputs. -/
theorem addPatient_getPatient_roundtrip_witness :
    ∃ newP : Pms.Patient,
      addPatient "g1" demoPayload demoStore =
        (Res.Ok newP, storeInsert "g1" newP demoStore) ∧
      getPatient "g1" (addPatient "g1" demoPayload demoStore).2 =
        (Res.Ok newP, (addPatient "g1" demoPayload demoStore).2) ∧
      newP.id = "g1" ∧ newP.isAdmitted = false ∧ newP.admittedAt = none ∧
      newP.dischargedAt = none ∧ newP.name = demoPayload.name ∧
      newP.age = demoPayload.age ∧ newP.gender = demoPayload.gender ∧
      newP.medicalRecords = demoPayload.medicalRecords :=
  addPatient_getPatient_roundtrip "g1" demoPayload demoStore (by decide)
    (by decide) (by decide) (by decide)

/-- C6: a successful `updatePatient(id, payload)` on a stored patient keeps
`id`, `isAdmitted`, `admittedAt` and `dischargedAt` from the previous value
and takes `name`, `age`, `gender` and the whole `medicalRecords` sequence
from the payload (the sequence is overwritten wholesale). -/
theorem updatePatient_merge_semantics (id : String) (payload : PatientPayload)
    (s : Store) (p : Patient) (hid : id ≠ "") (hp : storeGet id s = some p)
    (hname : payload.name ≠ "") (hage : payload.age ≠ 0)
    (hgender : payload.gender ≠ "") :
    ∃ q : Patient,
      updatePatient id payload s = (Res.Ok q, storeInsert id q s) ∧
      storeGet id (updatePatient id payload s).2 = some q ∧
      q.id = p.id ∧ q.isAdmitted = p.isAdmitted ∧
      q.admittedAt = p.admittedAt ∧ q.dischargedAt = p.dischargedAt ∧
      q.name = payload.name ∧ q.age = payload.age ∧
      q.gender = payload.gender ∧ q.medicalRecords = payload.medicalRecords := by
  refine ⟨{ p with
      name := payload.name, age := payload.age,
      gender := payload.gender, medicalRecords := payload.medicalRecords },
    ?_, ?_, rfl, rfl, rfl, rfl, rfl, rfl, rfl, rfl⟩
  · simp [updatePatient, hid, hname, hage, hgender, hp]
  · simp [updatePatient, hid, hname, hage, hgender, hp, storeGet_insert_self]

/-- Witness for C6 at concrete inputs. -/
theorem updatePatient_merge_semantics_witness :
    ∃ q : Pms.Patient,
      updatePatient "a" demoPayload demoStore =
        (Res.Ok q, storeInsert "a" q demoStore) ∧
      storeGet "a" (updatePatient "a" demoPayload demoStore).2 = some q ∧
      q.id = demoPatient.id ∧ q.isAdmitted = demoPatient.isAdmitted ∧
      q.admittedAt = demoPatient.admittedAt ∧
      q.dischargedAt = demoPatient.dischargedAt ∧
      q.name = demoPayload.name ∧ q.age = demoPayload.age ∧
      q.gender = demoPayload.gender ∧
      q.medicalRecords = demoPayload.medicalRecords :=
  updatePatient_merge_semantics "a" demoPayload demoStore demoPatient
    (by decide) (by decide) (by decide) (by decide) (by decide)

/-- C9: a successful `addMedicalRecord(pid, r)` stores the patient with `r`
appended at the end of `medicalRecords`; `getMedicalRecords(pid)` right
afterwards returns a sequence whose last element is `r` and whose prefix is
the previous sequence. -/
theorem addMedicalRecord_appends (pid : String) (r : MedicalRecord)
    (s : Store) (p : Patient) (hpid : pid ≠ "")
    (hp : storeGet pid s = some p) :
    addMedicalRecord pid r s =
      (Res.Ok { p with medicalRecords := p.medicalRecords ++ [r] },
       storeInsert pid { p with medicalRecords := p.medicalRecords ++ [r] } s) ∧
    getMedicalRecords pid (addMedicalRecord pid r s).2 =
      (Res.Ok (p.medicalRecords ++ [r]), (addMedicalRecord pid r s).2) ∧
    (p.medicalRecords ++ [r]).getLast? = some r ∧
    (p.medicalRecords ++ [r]).take p.medicalRecords.length =
      p.medicalRecords := by
  refine ⟨?_, ?_, ?_, ?_⟩
  · simp [addMedicalRecord, hpid, hp]
  · simp [addMedicalRecord, getMedicalRecords, hpid, hp, storeGet_insert_self]
  · simp
  · simp

/-- Witness for C9 at concrete inputs. -/
theorem addMedicalRecord_appends_witness :
    addMedicalRecord "a" (demoRecord "r9") demoStore =
      (Res.Ok { demoPatient with
        medicalRecords := demoPatient.medicalRecords ++ [demoRecord "r9"] },
       storeInsert "a" { demoPatient with
         medicalRecords := demoPatient.medicalRecords ++ [demoRecord "r9"] }
         demoStore) ∧
    (demoPatient.medicalRecords ++ [demoRecord "r9"]).getLast? =
      some (demoRecord "r9") :=
  ⟨(addMedicalRecord_appends "a" (demoRecord "r9") demoStore demoPatient
      (by decide) (by decide)).1,
   (addMedicalRecord_appends "a" (demoRecord "r9") demoStore demoPatient
      (by decide) (by decide)).2.2.1⟩

/-- C7: on a stored patient, when some record's id equals `rid`,
`updateMedicalRecord` replaces the element at the first matching position
(preserving length and every other element's value and position, with the
matching position witnessed as the first one), and `deleteMedicalRecord`
removes exactly that element, keeping all other elements in relative order;
when no record matches, both return the record-not-found error and the store
(hence the stored patient) is unchanged. -/
theorem medicalRecord_first_match (pid rid : String) (r : MedicalRecord)
    (s : Store) (p : Patient) (i : Nat) (hpid : pid ≠ "") (hrid : rid ≠ "")
    (hp : storeGet pid s = some p) :
    (jsFindIndex (fun m => m.id = rid) p.medicalRecords = some i →
      updateMedicalRecord pid rid r s =
        (Res.Ok { p with
           medicalRecords := p.medicalRecords.take i ++ [r] ++
             p.medicalRecords.drop (i + 1) },
         storeInsert pid { p with
           medicalRecords := p.medicalRecords.take i ++ [r] ++
             p.medicalRecords.drop (i + 1) } s) ∧
      (p.medicalRecords.take i ++ [r] ++ p.medicalRecords.drop (i + 1)).length
        = p.medicalRecords.length ∧
      (p.medicalRecords.take i ++ [r] ++ p.medicalRecords.drop (i + 1))[i]?
        = some r ∧
      (∀ j, j ≠ i →
        (p.medicalRecords.take i ++ [r] ++ p.medicalRecords.drop (i + 1))[j]?
          = p.medicalRecords[j]?) ∧
      (∃ m, p.medicalRecords[i]? = some m ∧ m.id = rid) ∧
      (∀ j, j < i → ∀ m, p.medicalRecords[j]? = some m → m.id ≠ rid) ∧
      deleteMedicalRecord pid rid s =
        (Res.Ok { p with
           medicalRecords := p.medicalRecords.take i ++
             p.medicalRecords.drop (i + 1) },
         storeInsert pid { p with
           medicalRecords := p.medicalRecords.take i ++
             p.medicalRecords.drop (i + 1) } s) ∧
      (p.medicalRecords.take i ++ p.medicalRecords.drop (i + 1)).length
        = p.medicalRecords.length - 1 ∧
      (∀ j, j < i →
        (p.medicalRecords.take i ++ p.medicalRecords.drop (i + 1))[j]?
          = p.medicalRecords[j]?) ∧
      (∀ j, i ≤ j →
        (p.medicalRecords.take i ++ p.medicalRecords.drop (i + 1))[j]?
          = p.medicalRecords[j + 1]?)) ∧
    (jsFindIndex (fun m => m.id = rid) p.medicalRecords = none →
      updateMedicalRecord pid rid r s =
        (Res.Err s!"Medical record with id={rid} not found for patient with id={pid}", s) ∧
      deleteMedicalRecord pid rid s =
        (Res.Err s!"Medical record with id={rid} not found for patient with id={pid}", s)) := by
  constructor
  · intro hF
    obtain ⟨hlt, hex, hfirst⟩ := jsFindIndex_spec _ _ _ hF
    have hset : p.medicalRecords.take i ++ [r] ++ p.medicalRecords.drop (i + 1)
        = p.medicalRecords.set i r := replaceAt_eq_set _ _ _ hlt
    have hdel : p.medicalRecords.take i ++ p.medicalRecords.drop (i + 1)
        = p.medicalRecords.eraseIdx i := eraseAt_eq_eraseIdx _ _
    refine ⟨?_, ?_, ?_, ?_, ?_, ?_, ?_, ?_, ?_, ?_⟩
    · simp [updateMedicalRecord, hpid, hrid, hp, hF]
    · rw [hset, List.length_set]
    · rw [hset, List.getElem?_set]
      simp [hlt]
    · intro j hj
      rw [hset]
      exact List.getElem?_set_ne (fun e => hj e.symm)
    · obtain ⟨m, hm, hpredm⟩ := hex
      exact ⟨m, hm, of_decide_eq_true hpredm⟩
    · intro j hj m hm
      exact of_decide_eq_false (hfirst j hj m hm)
    · simp [deleteMedicalRecord, hpid, hrid, hp, hF]
    · rw [hdel, List.length_eraseIdx]
      simp [hlt]
    · intro j hj
      rw [hdel, List.getElem?_eraseIdx]
      simp [hj]
    · intro j hj
      rw [hdel, List.getElem?_eraseIdx]
      simp [Nat.not_lt.mpr hj]
  · intro hF
    constructor
    · simp [updateMedicalRecord, hpid, hrid, hp, hF]
    · simp [deleteMedicalRecord, hpid, hrid, hp, hF]

/-- Witness for C7: in `demoStore` the patient's records are
`[r1, dup, dup]`, so searching for id `"dup"` resolves to position 1, the
first of the two duplicates. -/
theorem medicalRecord_first_match_witness :
    updateMedicalRecord "a" "dup" (demoRecord "r9") demoStore =
      (Res.Ok { demoPatient with
         medicalRecords := demoPatient.medicalRecords.take 1 ++
           [demoRecord "r9"] ++ demoPatient.medicalRecords.drop 2 },
       storeInsert "a" { demoPatient with
         medicalRecords := demoPatient.medicalRecords.take 1 ++
           [demoRecord "r9"] ++ demoPatient.medicalRecords.drop 2 }
         demoStore) ∧
    deleteMedicalRecord "a" "dup" demoStore =
      (Res.Ok { demoPatient with
         medicalRecords := demoPatient.medicalRecords.take 1 ++
           demoPatient.medicalRecords.drop 2 },
       storeInsert "a" { demoPatient with
         medicalRecords := demoPatient.medicalRecords.take 1 ++
           demoPatient.medicalRecords.drop 2 } demoStore) :=
  ⟨((medicalRecord_first_match "a" "dup" (demoRecord "r9") demoStore
      demoPatient 1 (by decide) (by decide) (by decide)).1 (by decide)).1,
   ((medicalRecord_first_match "a" "dup" (demoRecord "r9") demoStore
      demoPatient 1 (by decide) (by decide) (by decide)).1
      (by decide)).2.2.2.2.2.2.1⟩

/-- C8: `searchPatients(q)` succeeds with exactly the stored patients whose
name contains `q` as a case-insensitive substring (sound and complete), it
never changes the store, and on the empty store the result is the empty
list. -/
theorem searchPatients_exact_filter (q : String) (s : Store) :
    (searchPatients q s).2 = s ∧
    (∃ l, (searchPatients q s).1 = Res.Ok l ∧
      (∀ p : Patient, p ∈ l ↔ p ∈ storeValues s ∧
        jsIncludes (jsToLower p.name) (jsToLower q) = true)) ∧
    (searchPatients q []).1 = Res.Ok ([] : List Patient) := by
  refine ⟨rfl, ⟨(storeValues s).filter
    (fun patient => jsIncludes (jsToLower patient.name) (jsToLower q)),
    rfl, ?_⟩, rfl⟩
  intro p
  simp [List.mem_filter]

theorem frame_addPatient (gid : String) (payload : PatientPayload) (s : Store)
    (k : String) (hk : k ≠ gid) :
    storeGet k (addPatient gid payload s).2 = storeGet k s := by
  unfold addPatient
  split
  · rfl
  · exact storeGet_insert_ne k gid _ s hk

theorem frame_updatePatient (id : String) (payload : PatientPayload)
    (s : Store) (k : String) (hk : k ≠ id) :
    storeGet k (updatePatient id payload s).2 = storeGet k s := by
  unfold updatePatient
  split
  · rfl
  split
  · rfl
  cases hG : storeGet id s with
  | none => simp only [hG]
  | some ex =>
      simp only [hG]
      exact storeGet_insert_ne k id _ s hk

theorem frame_addMedicalRecord (pid : String) (r : MedicalRecord) (s : Store)
    (k : String) (hk : k ≠ pid) :
    storeGet k (addMedicalRecord pid r s).2 = storeGet k s := by
  unfold addMedicalRecord
  split
  · rfl
  cases hG : storeGet pid s with
  | none => simp only [hG]
  | some ex =>
      simp only [hG]
      exact storeGet_insert_ne k pid _ s hk

theorem frame_updateMedicalRecord (pid rid : String) (r : MedicalRecord)
    (s : Store) (k : String) (hk : k ≠ pid) :
    storeGet k (updateMedicalRecord pid rid r s).2 = storeGet k s := by
  unfold updateMedicalRecord
  split
  · rfl
  cases hG : storeGet pid s with
  | none => simp only [hG]
  | some ex =>
      simp only [hG]
      cases hF : jsFindIndex (fun record => record.id = rid) ex.medicalRecords with
      | none => simp only [hF]
      | some i =>
          simp only [hF]
          exact storeGet_insert_ne k pid _ s hk

theorem frame_deleteMedicalRecord (pid rid : String) (s : Store) (k : String)
    (hk : k ≠ pid) :
    storeGet k (deleteMedicalRecord pid rid s).2 = storeGet k s := by
  unfold deleteMedicalRecord
  split
  · rfl
  cases hG : storeGet pid s with
  | none => simp only [hG]
  | some ex =>
      simp only [hG]
      cases hF : jsFindIndex (fun record => record.id = rid) ex.medicalRecords with
      | none => simp only [hF]
      | some i =>
          simp only [hF]
          exact storeGet_insert_ne k pid _ s hk

theorem frame_admitPatient (id : String) (t : Nat) (s : Store) (k : String)
    (hk : k ≠ id) : storeGet k (admitPatient id t s).2 = storeGet k s := by
  unfold admitPatient
  split
  · rfl
  cases hG : storeGet id s with
  | none => simp only [hG]
  | some ex =>
      simp only [hG]
      by_cases hA : ex.isAdmitted
      · simp only [hA, if_true]
      · simp only [hA, if_false]
        exact storeGet_insert_ne k id _ s hk

theorem frame_dischargePatient (id : String) (t : Nat) (s : Store) (k : String)
    (hk : k ≠ id) : storeGet k (dischargePatient id t s).2 = storeGet k s := by
  unfold dischargePatient
  split
  · rfl
  cases hG : storeGet id s with
  | none => simp only [hG]
  | some ex =>
      simp only [hG]
      by_cases hA : ex.isAdmitted
      · simp only [hA, Bool.not_true, if_false]
        exact storeGet_insert_ne k id _ s hk
      · simp only [hA, Bool.not_false, if_true]

theorem frame_deletePatient (id : String) (s : Store) (k : String)
    (hk : k ≠ id) : storeGet k (deletePatient id s).2 = storeGet k s := by
  unfold deletePatient
  split
  · rfl
  · simp only [jsTruthyOpt, Bool.not_true, Bool.false_eq_true, if_false]
    exact storeGet_remove_ne k id s hk

/-- C10: every operation modifies at most the store entry at the patient id
it operates on (the freshly generated id for `addPatient`): lookups at every
other key are unchanged, and the four read operations return the store
unchanged. -/
theorem ops_touch_only_target_key :
    (∀ gid payload s k, k ≠ gid →
      storeGet k (addPatient gid payload s).2 = storeGet k s) ∧
    (∀ id payload s k, k ≠ id →
      storeGet k (updatePatient id payload s).2 = storeGet k s) ∧
    (∀ pid r s k, k ≠ pid →
      storeGet k (addMedicalRecord pid r s).2 = storeGet k s) ∧
    (∀ pid rid r s k, k ≠ pid →
      storeGet k (updateMedicalRecord pid rid r s).2 = storeGet k s) ∧
    (∀ pid rid s k, k ≠ pid →
      storeGet k (deleteMedicalRecord pid rid s).2 = storeGet k s) ∧
    (∀ id t s k, k ≠ id →
      storeGet k (admitPatient id t s).2 = storeGet k s) ∧
    (∀ id t s k, k ≠ id →
      storeGet k (dischargePatient id t s).2 = storeGet k s) ∧
    (∀ id s k, k ≠ id →
      storeGet k (deletePatient id s).2 = storeGet k s) ∧
    (∀ id s, (getPatient id s).2 = s) ∧
    (∀ s, (getPatients s).2 = s) ∧
    (∀ id s, (getMedicalRecords id s).2 = s) ∧
    (∀ q s, (searchPatients q s).2 = s) :=
  ⟨fun gid payload s k hk => frame_addPatient gid payload s k hk,
   fun id payload s k hk => frame_updatePatient id payload s k hk,
   fun pid r s k hk => frame_addMedicalRecord pid r s k hk,
   fun pid rid r s k hk => frame_updateMedicalRecord pid rid r s k hk,
   fun pid rid s k hk => frame_deleteMedicalRecord pid rid s k hk,
   fun id t s k hk => frame_admitPatient id t s k hk,
   fun id t s k hk => frame_dischargePatient id t s k hk,
   fun id s k hk => frame_deletePatient id s k hk,
   fun id s => getPatient_snd id s,
   fun _ => rfl,
   fun id s => getMedicalRecords_snd id s,
   fun _ _ => rfl⟩

/-- Witness for C10 at concrete inputs. -/
theorem ops_touch_only_target_key_witness :
    storeGet "zzz" (admitPatient "a" 5 demoStore).2 = storeGet "zzz" demoStore ∧
    storeGet "zzz"
        (deletePatient "aaaaaaaa-aaaa-aaaa-aaaa-aaaaaaaaaaaa" demoStore).2 =
      storeGet "zzz" demoStore ∧
    (getPatients demoStore).2 = demoStore :=
  ⟨ops_touch_only_target_key.2.2.2.2.2.1 "a" 5 demoStore "zzz" (by decide),
   ops_touch_only_target_key.2.2.2.2.2.2.2.1
     "aaaaaaaa-aaaa-aaaa-aaaa-aaaaaaaaaaaa" demoStore "zzz" (by decide),
   ops_touch_only_target_key.2.2.2.2.2.2.2.2.2.1 demoStore⟩

end Pms
